import Mathlib

/-!
Verification of the token-audit event-normalization and analytics core

Shallow embedding of the event normalization, incremental aggregation and
analytics engine of the `token-audit` repository:

* `src/mcp_audit/codex_cli_adapter.py`  (turn-based / append-only platform)
* `src/mcp_audit/gemini_cli_adapter.py` (message-based / whole-file platform)
* `src/mcp_audit/cli.py`                (session cleanup on exit)
* `src/token_audit/display/session_browser.py` (timeline, spikes, comparison)

Machine integers are modelled as `Nat` (token counts are non-negative and
Python integers are unbounded); float arithmetic on durations, mtimes and
percentages is modelled exactly over `ℚ` (and `ℝ` where a square root is
taken).  A Python dict that is consumed only through `.get(key, 0)` is
modelled as a structure with the defaulted fields; an optional dict whose
truthiness is tested (`if not usage:`) is modelled as an `Option` where
`none` stands for "absent or empty".
-/

namespace TokenAudit

/-- String constants used by the adapters.  `mcp_marker` is the MCP tool-name
convention marker, `session_sentinel` the reserved sentinel tool name. -/
def mcp_marker : String := "mcp__"

def session_sentinel : String := "__session__"

def gemini_type_user : String := "user"

def gemini_type_agent : String := "gemini"

def status_success : String := "success"

/-- The `__` separator of the MCP naming convention. -/
def mcp_sep : String := "__"

/-- Model identifier used in concrete examples. -/
def model_gemini_pro : String := "gemini-2.5-pro"

/-- `Session.token_usage` of `BaseTracker` as the adapters mutate it:
four component counters, a running total, and the cache-efficiency ratio. -/
structure TokenUsage where
  input_tokens : ℕ
  output_tokens : ℕ
  cache_created_tokens : ℕ
  cache_read_tokens : ℕ
  total_tokens : ℕ
  cache_efficiency : ℚ
deriving DecidableEq

def init_token_usage : TokenUsage :=
  { input_tokens := 0, output_tokens := 0, cache_created_tokens := 0,
    cache_read_tokens := 0, total_tokens := 0, cache_efficiency := 0 }

/-- The four token fields common to every normalized usage dictionary. -/
structure UsageDelta where
  input : ℕ
  output : ℕ
  cache_created : ℕ
  cache_read : ℕ
deriving DecidableEq

/-- Per-tool statistics inside a server session (spec §3 `ToolStats`); the
call history keeps the per-call total token counts (`avg_tokens` is derived
as `total_tokens / calls` and carries no extra information). -/
structure ToolStats where
  calls : ℕ
  total_tokens : ℕ
  history : List ℕ
deriving DecidableEq

/-- Per-server statistics (spec §3 `ServerSession`). -/
structure ServerStats where
  total_calls : ℕ
  total_tokens : ℕ
  tools : List (String × ToolStats)
deriving DecidableEq

/-- The mutable session aggregate (spec §3 `SessionAggregate`), restricted to
the fields the adapters under `src/` read or write. -/
structure Session where
  token_usage : TokenUsage
  servers : List (String × ServerStats)
  mcp_total_calls : ℕ
  unique_tool_keys : List (String × String)
  message_count : ℕ
  model : Option String
  working_directory : Option String
deriving DecidableEq

def init_session : Session :=
  { token_usage := init_token_usage, servers := [], mcp_total_calls := 0,
    unique_tool_keys := [], message_count := 0, model := none,
    working_directory := none }

/-- Split an MCP tool name on the naming convention: drop the `mcp__` marker,
the first `__`-separated segment is the server, the remainder the tool's
short name. -/
def split_mcp_name (name : String) : String × String :=
  let rest := name.drop 5
  match rest.splitOn mcp_sep with
  | [] => ("", "")
  | s :: tl => (s, String.intercalate mcp_sep tl)

def upsert_tool (tools : List (String × ToolStats)) (tool : String) (tk : ℕ) :
    List (String × ToolStats) :=
  match tools with
  | [] => [(tool, { calls := 1, total_tokens := tk, history := [tk] })]
  | (n, ts) :: rest =>
    if n = tool then
      (n, { calls := ts.calls + 1, total_tokens := ts.total_tokens + tk,
            history := ts.history ++ [tk] }) :: rest
    else
      (n, ts) :: upsert_tool rest tool tk

def upsert_server (servers : List (String × ServerStats)) (server tool : String)
    (tk : ℕ) : List (String × ServerStats) :=
  match servers with
  | [] => [(server, { total_calls := 1, total_tokens := tk,
                      tools := [(tool, { calls := 1, total_tokens := tk, history := [tk] })] })]
  | (n, ss) :: rest =>
    if n = server then
      (n, { total_calls := ss.total_calls + 1, total_tokens := ss.total_tokens + tk,
            tools := upsert_tool ss.tools tool tk }) :: rest
    else
      (n, ss) :: upsert_server rest server tool tk

/-- Modelled from the spec: `BaseTracker.record_tool_call` is not under
`src/` (only its callers are).  Spec §4.3: for a non-sentinel event, derive
`server` and short tool name by splitting the tool name on the MCP prefix
convention, upsert the `ServerSession`/`ToolStats` entry, increment
`total_calls` and `unique_tools` (count of distinct `(server, tool)` keys
ever observed), and append the call's total token count to the tool's call
history.  The session's `TokenTotals` are not part of this update. -/
def record_tool_call (s : Session) (tool_name : String) (u : UsageDelta) : Session :=
  let p := split_mcp_name tool_name
  let call_tokens := u.input + u.output + u.cache_created + u.cache_read
  let keys :=
    if (p.1, p.2) ∈ s.unique_tool_keys then s.unique_tool_keys
    else (p.1, p.2) :: s.unique_tool_keys
  { s with
    servers := upsert_server s.servers p.1 p.2 call_tokens,
    mcp_total_calls := s.mcp_total_calls + 1,
    unique_tool_keys := keys }

/-!
Codex CLI adapter (`codex_cli_adapter.py`)

The turn-based, append-only platform.  A raw JSONL line either fails to
parse (modelled as `none`) or carries one of the recognized event shapes.
-/

/-- `last_token_usage` / `total_token_usage` dictionaries, consumed through
`.get(field, 0)`. -/
structure TokenUsagePayload where
  input_tokens : ℕ
  cached_input_tokens : ℕ
  output_tokens : ℕ
  reasoning_output_tokens : ℕ
deriving DecidableEq

/-- The `info` dictionary of a `token_count` payload.  `none` in either slot
stands for an absent *or empty* dict (both are falsy under
`info.get("last_token_usage") or info.get("total_token_usage", {})`). -/
structure TokenCountInfo where
  last_token_usage : Option TokenUsagePayload
  total_token_usage : Option TokenUsagePayload
deriving DecidableEq

/-- A parsed Codex session JSONL record, keeping the payload fields
`parse_event` consumes.  `other` covers every unrecognized event type. -/
inductive CodexRecord where
  | session_meta (cwd : Option String) (cli_version : Option String)
  | turn_context (model : Option String)
  | token_count (info : Option TokenCountInfo)
  | function_call (name : String) (tool_params : List (String × String))
      (call_id : Option String)
  | other
deriving DecidableEq

/-- Normalized usage dictionary produced by `CodexCLIAdapter.parse_event`. -/
structure CodexUsage where
  input_tokens : ℕ
  output_tokens : ℕ
  cache_created_tokens : ℕ
  cache_read_tokens : ℕ
  tool_params : List (String × String)
  call_id : Option String
deriving DecidableEq

/-- `CodexCLIAdapter._parse_token_count`: prefer the delta
(`last_token_usage`), fall back to the cumulative total; fold reasoning
tokens into output; drop the event when no usage info is present or the
mapped fields sum to zero. -/
def parse_token_count (info : Option TokenCountInfo) : Option (String × CodexUsage) :=
  match info with
  | none => none
  | some i =>
    match i.last_token_usage.orElse (fun _ => i.total_token_usage) with
    | none => none
    | some usage =>
      let d : CodexUsage :=
        { input_tokens := usage.input_tokens,
          output_tokens := usage.output_tokens + usage.reasoning_output_tokens,
          cache_created_tokens := 0,
          cache_read_tokens := usage.cached_input_tokens,
          tool_params := [], call_id := none }
      if 0 < d.input_tokens + d.output_tokens + d.cache_created_tokens +
          d.cache_read_tokens then
        some (session_sentinel, d)
      else
        none

/-- Python's `str.startswith("mcp__")`, modelled over the string's character
list. -/
def starts_with_marker (name : String) : Bool :=
  mcp_marker.data.isPrefixOf name.data

/-- `CodexCLIAdapter._parse_function_call`: only MCP tools (name prefixed by
the MCP marker) are kept; the call itself carries zero tokens.  A JSON
failure on `arguments` yields empty `tool_params`, which is how an
unparsable argument string is modelled here. -/
def parse_function_call (name : String) (tool_params : List (String × String))
    (call_id : Option String) : Option (String × CodexUsage) :=
  if starts_with_marker name then
    some (name,
      { input_tokens := 0, output_tokens := 0, cache_created_tokens := 0,
        cache_read_tokens := 0, tool_params := tool_params, call_id := call_id })
  else
    none

/-- Mutable adapter state of `CodexCLIAdapter` relevant to the core:
model latch, session metadata, the aggregate, and the tailing cursor
(`_processed_lines`, `_last_file_mtime`). -/
structure CodexState where
  detected_model : Option String
  session_cwd : Option String
  cli_version : Option String
  has_received_events : Bool
  session : Session
  processed_lines : ℕ
  last_file_mtime : ℚ
deriving DecidableEq

def init_codex : CodexState :=
  { detected_model := none, session_cwd := none, cli_version := none,
    has_received_events := false, session := init_session,
    processed_lines := 0, last_file_mtime := 0 }

/-- `CodexCLIAdapter.parse_event` on a successfully decoded record:
metadata and model-context events mutate adapter state and emit nothing;
token-count and function-call events emit a normalized pair. -/
def codex_parse_event (st : CodexState) (r : CodexRecord) :
    CodexState × Option (String × CodexUsage) :=
  match r with
  | .session_meta cwd v =>
    ({ st with
       session_cwd := cwd
       cli_version := v
       session := { st.session with
         working_directory := cwd.orElse (fun _ => st.session.working_directory) } },
     none)
  | .turn_context m =>
    match st.detected_model, m with
    | none, some mid =>
      ({ st with
         detected_model := some mid
         session := { st.session with model := some mid } }, none)
    | _, _ => (st, none)
  | .token_count info => (st, parse_token_count info)
  | .function_call n p c => (st, parse_function_call n p c)
  | .other => (st, none)

/-- `CodexCLIAdapter._process_tool_call`: the sentinel adds the four token
fields into the totals, adds their sum to `total_tokens`, and recomputes the
cache efficiency when the input-side denominator is positive; every other
tool name is recorded as an MCP tool call. -/
def codex_process_tool_call (s : Session) (tool_name : String) (u : CodexUsage) :
    Session :=
  let total := u.input_tokens + u.output_tokens + u.cache_created_tokens +
    u.cache_read_tokens
  if tool_name = session_sentinel then
    let tu := s.token_usage
    let tu1 : TokenUsage :=
      { input_tokens := tu.input_tokens + u.input_tokens,
        output_tokens := tu.output_tokens + u.output_tokens,
        cache_created_tokens := tu.cache_created_tokens + u.cache_created_tokens,
        cache_read_tokens := tu.cache_read_tokens + u.cache_read_tokens,
        total_tokens := tu.total_tokens + total,
        cache_efficiency := tu.cache_efficiency }
    let denom := tu1.input_tokens + tu1.cache_created_tokens + tu1.cache_read_tokens
    let tu2 :=
      if 0 < denom then
        { tu1 with cache_efficiency := (tu1.cache_read_tokens : ℚ) / (denom : ℚ) }
      else tu1
    { s with token_usage := tu2 }
  else
    record_tool_call s tool_name
      { input := u.input_tokens, output := u.output_tokens,
        cache_created := u.cache_created_tokens, cache_read := u.cache_read_tokens }

/-- One line of `_process_session_file`'s read loop: blank or undecodable
lines (`none`) are skipped; decoded records go through `parse_event` and,
when an event is produced, through `_process_tool_call`. -/
def codex_step (st : CodexState) (line : Option CodexRecord) : CodexState :=
  match line with
  | none => st
  | some r =>
    let pr := codex_parse_event st r
    match pr.2 with
    | none => pr.1
    | some nu =>
      { pr.1 with
        has_received_events := true
        session := codex_process_tool_call pr.1.session nu.1 nu.2 }

/-- What one poll observes of the session file: whether it exists, its
modification time, and the read outcome.  The file is streamed line by line
inside the `try`, so an `OSError` can strike part-way through: `.error pre`
models a raise after the lines `pre` were already streamed (an `open`
failure is `.error []`); `.ok lines` a complete read. -/
structure CodexFileView where
  present : Bool
  mtime : ℚ
  content : Except (List (Option CodexRecord)) (List (Option CodexRecord))

/-- `CodexCLIAdapter._process_session_file`: return if the file is missing
or its mtime is unchanged; otherwise record the new mtime, skip the already
consumed line count, process only the new lines, and advance the consumed
count by the number of new lines.  The whole read loop sits inside the
`try`: on an `OSError` the lines already streamed past the consumed count
have been parsed and applied, but the trailing
`self._processed_lines = line_count` assignment is never reached, so the
consumed count does not advance; the exception is caught and reported
(`handle_unrecognized_line`) after the mtime was already recorded. -/
def codex_process_session_file (st : CodexState) (f : CodexFileView) : CodexState :=
  if f.present = false then st
  else if f.mtime = st.last_file_mtime then st
  else
    let st1 := { st with last_file_mtime := f.mtime }
    match f.content with
    | .error pre =>
      let new_lines := pre.drop st1.processed_lines
      new_lines.foldl codex_step st1
    | .ok lines =>
      let new_lines := lines.drop st1.processed_lines
      let st2 := new_lines.foldl codex_step st1
      { st2 with processed_lines := st1.processed_lines + new_lines.length }

/-!
Gemini CLI adapter (`gemini_cli_adapter.py`)

The message-based platform: the source is a whole JSON document holding a
list of messages, periodically rewritten.
-/

/-- The `tokens` dictionary of a message (`GeminiMessage.from_json` defaults
every field to `0`). -/
structure GeminiTokens where
  input : ℕ
  output : ℕ
  cached : ℕ
  thoughts : ℕ
  tool : ℕ
  total : ℕ
deriving DecidableEq

def zero_gemini_tokens : GeminiTokens :=
  { input := 0, output := 0, cached := 0, thoughts := 0, tool := 0, total := 0 }

/-- One entry of a message's `toolCalls` array, keeping the fields
`_parse_tool_call` consumes. -/
structure GeminiToolCallData where
  id : String
  name : String
  status : String
deriving DecidableEq

/-- A parsed Gemini message (`GeminiMessage`).  An absent `toolCalls` array
and an empty one behave identically (`if msg.tool_calls:`), so both are the
empty list. -/
structure GeminiMsg where
  id : String
  message_type : String
  model : Option String
  tool_calls : List GeminiToolCallData
  tokens : Option GeminiTokens
deriving DecidableEq

/-- Normalized usage dictionary produced by `GeminiCLIAdapter.parse_event`
(session variant carries `thoughts_tokens`/`tool_tokens`, tool variant
carries `duration_ms`/`success`/`tool_call_id`; absent keys are zero). -/
structure GeminiUsage where
  input_tokens : ℕ
  output_tokens : ℕ
  cache_created_tokens : ℕ
  cache_read_tokens : ℕ
  thoughts_tokens : ℕ
  tool_tokens : ℕ
  duration_ms : ℕ
  success : Bool
  tool_call_id : String
deriving DecidableEq

/-- Mutable adapter state of `GeminiCLIAdapter` relevant to the core:
model latch, the thoughts side counter, the aggregate, and the tailing
cursor (`_processed_message_ids`, `_last_file_mtime`). -/
structure GeminiState where
  detected_model : Option String
  thoughts_total : ℕ
  session : Session
  processed_message_ids : List String
  last_file_mtime : ℚ
deriving DecidableEq

def init_gemini : GeminiState :=
  { detected_model := none, thoughts_total := 0, session := init_session,
    processed_message_ids := [], last_file_mtime := 0 }

/-- `GeminiCLIAdapter._parse_tool_call`: only MCP tools are kept; the first
matching call claims the parent message's `tool` token count as its output
tokens. -/
def gemini_parse_tool_call (tc : GeminiToolCallData) (tokens : GeminiTokens) :
    Option (String × GeminiUsage) :=
  if starts_with_marker tc.name then
    some (tc.name,
      { input_tokens := 0, output_tokens := tokens.tool,
        cache_created_tokens := 0, cache_read_tokens := 0,
        thoughts_tokens := 0, tool_tokens := 0, duration_ms := 0,
        success := tc.status = status_success, tool_call_id := tc.id })
  else
    none

/-- `GeminiCLIAdapter.parse_event`: user messages are dropped; the model is
latched on first occurrence; thoughts tokens accumulate in the side counter;
if any embedded tool call matches the MCP convention the first such call's
event is returned, otherwise the message's token breakdown is returned as
the sentinel session delta (`thoughts` folded into output, `cached` mapped
to cache-read). -/
def gemini_parse_event (st : GeminiState) (msg : GeminiMsg) :
    GeminiState × Option (String × GeminiUsage) :=
  if msg.message_type = gemini_type_user then (st, none)
  else
    let st1 :=
      match msg.model, st.detected_model with
      | some m, none =>
        { st with
          detected_model := some m
          session := { st.session with model := some m } }
      | _, _ => st
    let tokens := msg.tokens.getD zero_gemini_tokens
    let st2 := { st1 with thoughts_total := st1.thoughts_total + tokens.thoughts }
    match msg.tool_calls.findSome? (fun tc => gemini_parse_tool_call tc tokens) with
    | some r => (st2, some r)
    | none =>
      (st2, some (session_sentinel,
        { input_tokens := tokens.input,
          output_tokens := tokens.output + tokens.thoughts,
          cache_created_tokens := 0,
          cache_read_tokens := tokens.cached,
          thoughts_tokens := tokens.thoughts, tool_tokens := tokens.tool,
          duration_ms := 0, success := true, tool_call_id := "" }))

/-- `GeminiCLIAdapter._process_parsed_event`: identical token accounting to
the Codex `_process_tool_call` on the sentinel; other names are recorded as
MCP tool calls. -/
def gemini_process_parsed_event (s : Session) (tool_name : String)
    (u : GeminiUsage) : Session :=
  if tool_name = session_sentinel then
    let tu := s.token_usage
    let total := u.input_tokens + u.output_tokens + u.cache_created_tokens +
      u.cache_read_tokens
    let tu1 : TokenUsage :=
      { input_tokens := tu.input_tokens + u.input_tokens,
        output_tokens := tu.output_tokens + u.output_tokens,
        cache_created_tokens := tu.cache_created_tokens + u.cache_created_tokens,
        cache_read_tokens := tu.cache_read_tokens + u.cache_read_tokens,
        total_tokens := tu.total_tokens + total,
        cache_efficiency := tu.cache_efficiency }
    let denom := tu1.input_tokens + tu1.cache_created_tokens + tu1.cache_read_tokens
    let tu2 :=
      if 0 < denom then
        { tu1 with cache_efficiency := (tu1.cache_read_tokens : ℚ) / (denom : ℚ) }
      else tu1
    { s with token_usage := tu2 }
  else
    record_tool_call s tool_name
      { input := u.input_tokens, output := u.output_tokens,
        cache_created := u.cache_created_tokens, cache_read := u.cache_read_tokens }

/-- One message of `_process_session_file`'s loop: already-processed ids are
skipped (`iter_messages`); otherwise the message is parsed, a produced event
is applied, the id is marked processed, and agent (`"gemini"`) messages bump
the message count. -/
def gemini_process_message (st : GeminiState) (msg : GeminiMsg) : GeminiState :=
  if msg.id ∈ st.processed_message_ids then st
  else
    let pr := gemini_parse_event st msg
    let st2 :=
      match pr.2 with
      | some nu => { pr.1 with session := gemini_process_parsed_event pr.1.session nu.1 nu.2 }
      | none => pr.1
    let st3 := { st2 with processed_message_ids := msg.id :: st2.processed_message_ids }
    if msg.message_type = gemini_type_agent then
      { st3 with session := { st3.session with message_count := st3.session.message_count + 1 } }
    else st3

/-- What one poll observes of the Gemini session document (`.error` models a
`json.JSONDecodeError`/`OSError` raised while reading or parsing the
document). -/
structure GeminiFileView where
  present : Bool
  mtime : ℚ
  content : Except Unit (List GeminiMsg)

/-- `GeminiCLIAdapter._process_session_file`: return if the file is missing
or its mtime is unchanged; otherwise record the new mtime, re-parse the
whole document and forward only messages not yet in the seen set.  A read
or decode failure is caught and reported after the mtime was already
recorded. -/
def gemini_process_session_file (st : GeminiState) (f : GeminiFileView) :
    GeminiState :=
  if f.present = false then st
  else if f.mtime = st.last_file_mtime then st
  else
    let st1 := { st with last_file_mtime := f.mtime }
    match f.content with
    | .error _ => st1
    | .ok msgs => msgs.foldl gemini_process_message st1

/-!
Timeline bucketing and spike detection
(`SessionBrowser._compute_timeline_data`, `session_browser.py`)

Durations and offsets are float seconds, modelled over `ℚ`; Python's
`int(x)` on a non-negative float is the floor.
-/

/-- Bucket width from total session duration (fixed breakpoints). -/
def bucket_duration (d : ℚ) : ℚ :=
  if d < 600 then 30
  else if d < 3600 then 60
  else if d < 14400 then 300
  else 900

/-- `num_buckets = max(1, int(duration_seconds / bucket_duration) + 1)`. -/
def num_buckets (d : ℚ) : ℕ :=
  max 1 ((⌊d / bucket_duration d⌋).toNat + 1)

/-- Bucket assignment for a call at `offset` seconds from session start:
negative offsets clamp to `0`, then
`min(int(offset / bucket_duration), num_buckets - 1)`. -/
def bucket_index (d : ℚ) (offset : ℚ) : ℕ :=
  let off := if offset < 0 then 0 else offset
  min (⌊off / bucket_duration d⌋).toNat (num_buckets d - 1)

/-- The non-zero bucket totals (`[b.total_tokens for b in buckets if b.total_tokens > 0]`). -/
def token_values (l : List ℕ) : List ℕ := l.filter (fun b => 0 < b)

/-- Mean over the non-zero bucket totals (`0` when there are none). -/
def mean_tokens (l : List ℕ) : ℚ :=
  if (token_values l).isEmpty then 0
  else ((token_values l).sum : ℚ) / ((token_values l).length : ℚ)

/-- Population variance over the non-zero bucket totals (`0` when there are
none). -/
def variance_tokens (l : List ℕ) : ℚ :=
  if (token_values l).isEmpty then 0
  else
    (((token_values l).map (fun t => ((t : ℚ) - mean_tokens l) ^ 2)).sum) /
      ((token_values l).length : ℚ)

/-- `std_dev = variance ** 0.5 if variance > 0 else 0`. -/
noncomputable def std_dev (l : List ℕ) : ℝ :=
  if 0 < variance_tokens l then Real.sqrt ((variance_tokens l : ℚ) : ℝ) else 0

/-- The spike condition of the detection loop: `std_dev > 0 and
bucket.total_tokens > 0` and z-score strictly above the `2.0` threshold. -/
def is_spike (l : List ℕ) (b : ℕ) : Prop :=
  0 < std_dev l ∧ 0 < b ∧
    2 < ((b : ℝ) - ((mean_tokens l : ℚ) : ℝ)) / std_dev l

/-- The spike list collected by the detection loop, as the sublist of bucket
totals satisfying the spike condition. -/
noncomputable def spikes (l : List ℕ) : List ℕ :=
  l.filter (fun b => @decide (is_spike l b) (Classical.propDecidable _))

/-!
Cross-session comparison (`SessionBrowser._compute_comparison_data`)
-/

/-- The two fields of a persisted session snapshot the delta computation
reads: `token_usage.total_tokens` and `mcp_summary.total_tokens`. -/
structure ComparisonSession where
  total_tokens : ℕ
  mcp_total_tokens : ℕ
deriving DecidableEq

/-- MCP token share in percent; `0` when the session's total is not
positive. -/
def mcp_share_pct (c : ComparisonSession) : ℚ :=
  if 0 < c.total_tokens then
    (c.mcp_total_tokens : ℚ) / (c.total_tokens : ℚ) * 100
  else 0

/-- The delta loop: for each comparison session append
`comp_tokens - baseline_tokens` and `comp_mcp_pct - baseline_mcp_pct`. -/
def comparison_deltas (baseline : ComparisonSession)
    (comps : List ComparisonSession) : List ℤ × List ℚ :=
  comps.foldl
    (fun acc c =>
      (acc.1 ++ [(c.total_tokens : ℤ) - (baseline.total_tokens : ℤ)],
       acc.2 ++ [mcp_share_pct c - mcp_share_pct baseline]))
    ([], [])

/-!
Session cleanup on exit (`cli.py`)
-/

/-- The module-level flags `_shutdown_in_progress` and `_session_saved`. -/
structure CleanupFlags where
  shutdown_in_progress : Bool
  session_saved : Bool
deriving DecidableEq

/-- The accumulated data `_cleanup_session` inspects on the active tracker:
`session.token_usage.total_tokens` and `session.mcp_tool_calls.total_calls`. -/
structure TrackerTotals where
  total_tokens : ℕ
  total_calls : ℕ
deriving DecidableEq

/-- `_cleanup_session`: re-entry guarded by the two flags; with an active
tracker, the session is finalized and saved only when it has data (positive
total tokens or at least one MCP call).  The returned boolean is whether a
save happened on this invocation.  `_signal_handler` and the atexit hook
both route through this function, so it covers every exit path. -/
def cleanup_session (fl : CleanupFlags) (tracker : Option TrackerTotals) :
    CleanupFlags × Bool :=
  if fl.shutdown_in_progress || fl.session_saved then (fl, false)
  else
    let fl1 : CleanupFlags :=
      { shutdown_in_progress := true, session_saved := fl.session_saved }
    match tracker with
    | none => (fl1, false)
    | some t =>
      if 0 < t.total_tokens || 0 < t.total_calls then
        ({ shutdown_in_progress := true, session_saved := true }, true)
      else
        (fl1, false)

/-!
Event application over sequences
-/

/-- Apply a sequence of normalized Codex events to an aggregate, in arrival
order, through `_process_tool_call`. -/
def codex_apply_events (s : Session) (evts : List (String × CodexUsage)) : Session :=
  evts.foldl (fun a e => codex_process_tool_call a e.1 e.2) s

/-- Apply a sequence of normalized Gemini events to an aggregate, in arrival
order, through `_process_parsed_event`. -/
def gemini_apply_events (s : Session) (evts : List (String × GeminiUsage)) : Session :=
  evts.foldl (fun a e => gemini_process_parsed_event a e.1 e.2) s

/-- Invariant: the running total equals the sum of the four components. -/
def total_inv (tu : TokenUsage) : Prop :=
  tu.total_tokens = tu.input_tokens + tu.output_tokens +
    tu.cache_created_tokens + tu.cache_read_tokens

/-- Invariant: the cache efficiency is the cache-read share of the
input-side tokens when that denominator is positive, else `0`. -/
def eff_inv (tu : TokenUsage) : Prop :=
  tu.cache_efficiency =
    if 0 < tu.input_tokens + tu.cache_created_tokens + tu.cache_read_tokens then
      (tu.cache_read_tokens : ℚ) /
        ((tu.input_tokens + tu.cache_created_tokens + tu.cache_read_tokens : ℕ) : ℚ)
    else 0

lemma record_tool_call_token_usage (s : Session) (n : String) (u : UsageDelta) :
    (record_tool_call s n u).token_usage = s.token_usage := rfl

lemma codex_step_total_inv (s : Session) (n : String) (u : CodexUsage)
    (h : total_inv s.token_usage) :
    total_inv (codex_process_tool_call s n u).token_usage := by
  unfold codex_process_tool_call
  split
  case isTrue =>
    unfold total_inv at h ⊢
    dsimp only
    split <;> dsimp only <;> omega
  case isFalse =>
    rw [record_tool_call_token_usage]
    exact h

lemma gemini_step_total_inv (s : Session) (n : String) (u : GeminiUsage)
    (h : total_inv s.token_usage) :
    total_inv (gemini_process_parsed_event s n u).token_usage := by
  unfold gemini_process_parsed_event
  split
  case isTrue =>
    unfold total_inv at h ⊢
    dsimp only
    split <;> dsimp only <;> omega
  case isFalse =>
    rw [record_tool_call_token_usage]
    exact h

lemma codex_fold_total_inv (evts : List (String × CodexUsage)) (s : Session)
    (h : total_inv s.token_usage) :
    total_inv (codex_apply_events s evts).token_usage := by
  induction evts generalizing s with
  | nil => exact h
  | cons e tl ih => exact ih _ (codex_step_total_inv s e.1 e.2 h)

lemma gemini_fold_total_inv (evts : List (String × GeminiUsage)) (s : Session)
    (h : total_inv s.token_usage) :
    total_inv (gemini_apply_events s evts).token_usage := by
  induction evts generalizing s with
  | nil => exact h
  | cons e tl ih => exact ih _ (gemini_step_total_inv s e.1 e.2 h)

/-- C4: for every sequence of canonical events, after every `apply()` the
aggregate's token totals satisfy
`total_tokens = input + output + cache_created + cache_read`; this holds for
the Codex `_process_tool_call` accumulation and the Gemini
`_process_parsed_event` accumulation alike, starting from the fresh
aggregate. -/
theorem total_tokens_recomputed_invariant :
    (∀ evts : List (String × CodexUsage),
      total_inv (codex_apply_events init_session evts).token_usage) ∧
    (∀ evts : List (String × GeminiUsage),
      total_inv (gemini_apply_events init_session evts).token_usage) := by
  constructor
  · intro evts
    exact codex_fold_total_inv evts init_session rfl
  · intro evts
    exact gemini_fold_total_inv evts init_session rfl

lemma codex_step_eff_inv (s : Session) (n : String) (u : CodexUsage)
    (h : eff_inv s.token_usage) :
    eff_inv (codex_process_tool_call s n u).token_usage := by
  unfold codex_process_tool_call
  split
  case isTrue =>
    unfold eff_inv at h ⊢
    dsimp only
    split
    case isTrue hd => dsimp only
    case isFalse hd =>
      dsimp only
      rw [h, if_neg (by omega)]
  case isFalse =>
    rw [record_tool_call_token_usage]
    exact h

lemma gemini_step_eff_inv (s : Session) (n : String) (u : GeminiUsage)
    (h : eff_inv s.token_usage) :
    eff_inv (gemini_process_parsed_event s n u).token_usage := by
  unfold gemini_process_parsed_event
  split
  case isTrue =>
    unfold eff_inv at h ⊢
    dsimp only
    split
    case isTrue hd => dsimp only
    case isFalse hd =>
      dsimp only
      rw [h, if_neg (by omega)]
  case isFalse =>
    rw [record_tool_call_token_usage]
    exact h

lemma codex_fold_eff_inv (evts : List (String × CodexUsage)) (s : Session)
    (h : eff_inv s.token_usage) :
    eff_inv (codex_apply_events s evts).token_usage := by
  induction evts generalizing s with
  | nil => exact h
  | cons e tl ih => exact ih _ (codex_step_eff_inv s e.1 e.2 h)

lemma gemini_fold_eff_inv (evts : List (String × GeminiUsage)) (s : Session)
    (h : eff_inv s.token_usage) :
    eff_inv (gemini_apply_events s evts).token_usage := by
  induction evts generalizing s with
  | nil => exact h
  | cons e tl ih => exact ih _ (gemini_step_eff_inv s e.1 e.2 h)

lemma eff_inv_bounds (tu : TokenUsage) (h : eff_inv tu) :
    0 ≤ tu.cache_efficiency ∧ tu.cache_efficiency ≤ 1 := by
  rw [eff_inv] at h
  rw [h]
  split
  case isTrue hd =>
    constructor
    · positivity
    · rw [div_le_one (by exact_mod_cast hd)]
      exact_mod_cast Nat.le_add_left _ _
  case isFalse hd => norm_num

/-- C5: for every sequence of canonical events, after every `apply()` the
aggregate's cache efficiency equals
`cache_read / (input + cache_created + cache_read)` when that denominator
is positive and `0` otherwise, and always lies in `[0, 1]`; this holds for
the Codex and the Gemini accumulation alike, starting from the fresh
aggregate. -/
theorem cache_efficiency_invariant :
    (∀ evts : List (String × CodexUsage),
      eff_inv (codex_apply_events init_session evts).token_usage ∧
      0 ≤ (codex_apply_events init_session evts).token_usage.cache_efficiency ∧
      (codex_apply_events init_session evts).token_usage.cache_efficiency ≤ 1) ∧
    (∀ evts : List (String × GeminiUsage),
      eff_inv (gemini_apply_events init_session evts).token_usage ∧
      0 ≤ (gemini_apply_events init_session evts).token_usage.cache_efficiency ∧
      (gemini_apply_events init_session evts).token_usage.cache_efficiency ≤ 1) := by
  constructor
  · intro evts
    have h := codex_fold_eff_inv evts init_session (by rw [eff_inv]; norm_num [init_session, init_token_usage])
    exact ⟨h, eff_inv_bounds _ h⟩
  · intro evts
    have h := gemini_fold_eff_inv evts init_session (by rw [eff_inv]; norm_num [init_session, init_token_usage])
    exact ⟨h, eff_inv_bounds _ h⟩

lemma cleanup_session_of_shutdown (fl : CleanupFlags) (tr : Option TrackerTotals)
    (h : fl.shutdown_in_progress = true) : cleanup_session fl tr = (fl, false) := by
  simp [cleanup_session, h]

/-- C9: on every exit path a session with empty accumulated data (zero total
tokens and zero MCP calls) is never persisted, and any invocation of the
cleanup routine after the first is a complete no-op (no further save, flags
unchanged), so at most one save ever happens. -/
theorem empty_session_never_persisted :
    (∀ (fl : CleanupFlags) (t : TrackerTotals),
      t.total_tokens = 0 → t.total_calls = 0 →
      (cleanup_session fl (some t)).2 = false) ∧
    (∀ (fl : CleanupFlags) (tr : Option TrackerTotals),
      cleanup_session (cleanup_session fl tr).1 tr =
        ((cleanup_session fl tr).1, false)) := by
  constructor
  · intro fl t h1 h2
    simp only [cleanup_session, h1, h2]
    split_ifs
    all_goals simp_all
  · intro fl tr
    by_cases hg : (fl.shutdown_in_progress || fl.session_saved) = true
    · simp [cleanup_session, hg]
    · have h1 : (cleanup_session fl tr).1.shutdown_in_progress = true := by
        cases tr with
        | none => simp [cleanup_session, hg]
        | some t =>
          simp only [cleanup_session, hg, Bool.false_eq_true, if_false]
          split_ifs
          all_goals rfl
      exact cleanup_session_of_shutdown _ tr h1

/-- Witness for C9 at a concrete empty session. -/
theorem empty_session_never_persisted_witness :
    (cleanup_session { shutdown_in_progress := false, session_saved := false }
      (some { total_tokens := 0, total_calls := 0 })).2 = false :=
  empty_session_never_persisted.1
    { shutdown_in_progress := false, session_saved := false }
    { total_tokens := 0, total_calls := 0 } rfl rfl

/-- C10: a Codex token-count event whose mapped token fields (input, output
plus reasoning, cached input) sum to zero, and a token-count event with no
usage info at all, parse to `None`, and processing such a record leaves the
adapter state (in particular the aggregate's token totals) completely
unchanged. -/
theorem zero_token_count_ignored :
    ∀ (st : CodexState) (i : Option TokenCountInfo),
      (i = none ∨
       ∃ info, i = some info ∧
         (info.last_token_usage.orElse (fun _ => info.total_token_usage) = none ∨
          ∃ u, info.last_token_usage.orElse (fun _ => info.total_token_usage) = some u ∧
            u.input_tokens + (u.output_tokens + u.reasoning_output_tokens) +
              u.cached_input_tokens = 0)) →
      parse_token_count i = none ∧
      codex_step st (some (.token_count i)) = st := by
  intro st i h
  have hp : parse_token_count i = none := by
    rcases h with h | ⟨info, hi, h⟩
    · rw [h]
      rfl
    · subst hi
      rcases h with h | ⟨u, hu, h0⟩
      · simp [parse_token_count, h]
      · simp only [parse_token_count, hu]
        rw [if_neg (by omega)]
  refine ⟨hp, ?_⟩
  simp [codex_step, codex_parse_event, hp]

/-- Witness for C10 at a concrete all-zero delta payload. -/
theorem zero_token_count_ignored_witness :
    parse_token_count
        (some { last_token_usage := some
                  { input_tokens := 0, cached_input_tokens := 0,
                    output_tokens := 0, reasoning_output_tokens := 0 },
                total_token_usage := none }) = none ∧
    codex_step init_codex
        (some (.token_count
          (some { last_token_usage := some
                    { input_tokens := 0, cached_input_tokens := 0,
                      output_tokens := 0, reasoning_output_tokens := 0 },
                  total_token_usage := none }))) = init_codex :=
  zero_token_count_ignored init_codex
    (some { last_token_usage := some
              { input_tokens := 0, cached_input_tokens := 0,
                output_tokens := 0, reasoning_output_tokens := 0 },
            total_token_usage := none })
    (Or.inr ⟨_, rfl, Or.inr ⟨_, rfl, rfl⟩⟩)

lemma foldl_append_pair {α β γ : Type} (f : α → β) (g : α → γ) :
    ∀ (l : List α) (acc : List β × List γ),
      l.foldl (fun a c => (a.1 ++ [f c], a.2 ++ [g c])) acc =
        (acc.1 ++ l.map f, acc.2 ++ l.map g) := by
  intro l
  induction l with
  | nil => intro acc; simp
  | cons x tl ih => intro acc; simp [ih]

/-- C7: each comparison session contributes
`token_delta = comp_total - baseline_total` and
`mcp_share_delta = comp_share_pct - baseline_share_pct` (a share being `0`
when its session's total tokens are not positive); in particular baseline
`{total=1000, mcp=400}` against comparison `{total=1500, mcp=900}` yields
`token_deltas = [500]` and `mcp_share_deltas = [20]`. -/
theorem comparison_delta_values :
    (∀ (b : ComparisonSession) (cs : List ComparisonSession),
      comparison_deltas b cs =
        (cs.map (fun c => (c.total_tokens : ℤ) - (b.total_tokens : ℤ)),
         cs.map (fun c => mcp_share_pct c - mcp_share_pct b))) ∧
    comparison_deltas { total_tokens := 1000, mcp_total_tokens := 400 }
        [{ total_tokens := 1500, mcp_total_tokens := 900 }] = ([500], [20]) := by
  constructor
  · intro b cs
    unfold comparison_deltas
    rw [foldl_append_pair]
    simp
  · norm_num [comparison_deltas, mcp_share_pct]

lemma bucket_duration_pos (d : ℚ) : 0 < bucket_duration d := by
  unfold bucket_duration
  split_ifs <;> norm_num

lemma num_buckets_pos (d : ℚ) : 0 < num_buckets d :=
  lt_of_lt_of_le one_pos (le_max_left _ _)

/-- C2 (amended): for a session of positive duration the bucket width is
chosen by the fixed breakpoints (30 s under 10 min, 60 s under 1 h, 5 min
under 4 h, else 15 min), the timeline allocates exactly
`floor(duration / bucket_width) + 1` buckets (the code truncates with
`int(...)`, it does not take a ceiling), and every call offset is assigned a
bucket index in `[0, bucket_count - 1]`. -/
theorem timeline_bucket_count_and_range :
    ∀ d : ℚ, 0 < d →
      ((d < 600 → bucket_duration d = 30) ∧
       (600 ≤ d → d < 3600 → bucket_duration d = 60) ∧
       (3600 ≤ d → d < 14400 → bucket_duration d = 300) ∧
       (14400 ≤ d → bucket_duration d = 900)) ∧
      num_buckets d = (⌊d / bucket_duration d⌋ + 1).toNat ∧
      ∀ off : ℚ, bucket_index d off < num_buckets d := by
  intro d hd
  refine ⟨⟨?_, ?_, ?_, ?_⟩, ?_, ?_⟩
  · intro h; simp [bucket_duration, h]
  · intro h1 h2
    unfold bucket_duration
    rw [if_neg (by linarith), if_pos h2]
  · intro h1 h2
    unfold bucket_duration
    rw [if_neg (by linarith), if_neg (by linarith), if_pos h2]
  · intro h1
    unfold bucket_duration
    rw [if_neg (by linarith), if_neg (by linarith), if_neg (by linarith)]
  · have hw := bucket_duration_pos d
    have hfl : 0 ≤ ⌊d / bucket_duration d⌋ :=
      Int.floor_nonneg.mpr (le_of_lt (div_pos hd hw))
    unfold num_buckets
    omega
  · intro off
    exact lt_of_le_of_lt (Nat.min_le_right _ _)
      (Nat.sub_lt (num_buckets_pos d) one_pos)

/-- Witness for C2 at a 45-second session and a call at offset 100 s. -/
theorem timeline_bucket_count_and_range_witness :
    num_buckets 45 = (⌊(45 : ℚ) / bucket_duration 45⌋ + 1).toNat ∧
    bucket_index 45 100 < num_buckets 45 :=
  ⟨(timeline_bucket_count_and_range 45 (by norm_num)).2.1,
   (timeline_bucket_count_and_range 45 (by norm_num)).2.2 100⟩

/-- Counterexample for C2 as stated: a 45-second session gets 30-second
buckets and the code allocates `int(45/30) + 1 = 2` buckets, while
`ceil(45/30) + 1 = 3`. -/
theorem timeline_bucket_count_ceil_counterexample :
    bucket_duration 45 = 30 ∧ num_buckets 45 = 2 ∧
    (⌈(45 : ℚ) / bucket_duration 45⌉ + 1).toNat = 3 ∧
    num_buckets 45 ≠ (⌈(45 : ℚ) / bucket_duration 45⌉ + 1).toNat := by
  have hc : ⌈(45 : ℚ) / bucket_duration 45⌉ = 2 := by
    rw [show bucket_duration 45 = 30 from by norm_num [bucket_duration]]
    rw [show (45 : ℚ) / 30 = 3 / 2 from by norm_num]
    rw [Int.ceil_eq_iff]
    constructor <;> norm_num
  refine ⟨?_, ?_, ?_, ?_⟩
  · norm_num [bucket_duration]
  · norm_num [num_buckets, bucket_duration]
  · rw [hc]
    rfl
  · rw [hc]
    norm_num [num_buckets, bucket_duration]
    decide

lemma token_values_mem_pos (l : List ℕ) (x : ℕ) (hx : x ∈ token_values l) :
    0 < x := by
  unfold token_values at hx
  rw [List.mem_filter] at hx
  exact of_decide_eq_true hx.2

lemma variance_pos_nonempty (l : List ℕ) (h : 0 < variance_tokens l) :
    (token_values l).isEmpty = false := by
  cases hie : (token_values l).isEmpty
  · rfl
  · unfold variance_tokens at h
    rw [if_pos hie] at h
    exact absurd h (lt_irrefl 0)

lemma mean_tokens_pos (l : List ℕ) (h : (token_values l).isEmpty = false) :
    0 < mean_tokens l := by
  have hne : token_values l ≠ [] := by
    intro hnil
    rw [hnil] at h
    exact absurd h (by decide)
  unfold mean_tokens
  rw [if_neg (by rw [h]; exact Bool.false_ne_true)]
  apply div_pos
  · have hpos : 0 < (token_values l).sum := by
      obtain ⟨x, hx⟩ := List.exists_mem_of_ne_nil _ hne
      have h1 := token_values_mem_pos l x hx
      calc 0 < x := h1
        _ ≤ (token_values l).sum := List.single_le_sum (fun y _ => Nat.zero_le y) x hx
    exact_mod_cast hpos
  · have : 0 < (token_values l).length := List.length_pos.mpr hne
    exact_mod_cast this

lemma std_dev_pos_variance (l : List ℕ) (hs : 0 < std_dev l) :
    0 < variance_tokens l := by
  by_contra hv
  unfold std_dev at hs
  rw [if_neg hv] at hs
  exact absurd hs (lt_irrefl 0)

lemma spike_total_pos (l : List ℕ) (b : ℕ) (hs : 0 < std_dev l)
    (hz : 2 < ((b : ℝ) - ((mean_tokens l : ℚ) : ℝ)) / std_dev l) : 0 < b := by
  have hvar := std_dev_pos_variance l hs
  have hmean : 0 < mean_tokens l := mean_tokens_pos l (variance_pos_nonempty l hvar)
  have h1 : 2 * std_dev l < (b : ℝ) - ((mean_tokens l : ℚ) : ℝ) :=
    (lt_div_iff₀ hs).mp hz
  have h2 : (0 : ℝ) < ((mean_tokens l : ℚ) : ℝ) := by exact_mod_cast hmean
  have h3 : (0 : ℝ) < (b : ℝ) := by nlinarith
  exact_mod_cast h3

/-- C6: in timeline spike detection the mean and population standard
deviation are taken over the non-zero bucket totals only (built into
`mean_tokens` / `variance_tokens`), a bucket total is in the spike list iff
`std_dev > 0` and its z-score strictly exceeds `2.0` (the extra
`total_tokens > 0` test of the loop is implied), and when `std_dev = 0` the
spike list is empty. -/
theorem spike_detection_characterization :
    ∀ l : List ℕ,
      (∀ b : ℕ, b ∈ spikes l ↔
        (b ∈ l ∧ 0 < std_dev l ∧
          2 < ((b : ℝ) - ((mean_tokens l : ℚ) : ℝ)) / std_dev l)) ∧
      (std_dev l = 0 → spikes l = []) := by
  intro l
  constructor
  · intro b
    unfold spikes
    simp only [List.mem_filter]
    constructor
    · rintro ⟨hb, hp⟩
      have hsp : is_spike l b :=
        @of_decide_eq_true (is_spike l b) (Classical.propDecidable _) hp
      exact ⟨hb, hsp.1, hsp.2.2⟩
    · rintro ⟨hb, hs, hz⟩
      exact ⟨hb, @decide_eq_true (is_spike l b) (Classical.propDecidable _)
        ⟨hs, spike_total_pos l b hs hz, hz⟩⟩
  · intro h0
    apply List.filter_eq_nil_iff.mpr
    intro a _ hd
    have hsp : is_spike l a :=
      @of_decide_eq_true (is_spike l a) (Classical.propDecidable _) hd
    have h1 : 0 < std_dev l := hsp.1
    rw [h0] at h1
    exact absurd h1 (lt_irrefl 0)

/-- Witness for C6: constant non-zero buckets have zero deviation and an
empty spike list. -/
theorem spike_detection_witness : spikes [5, 5, 5] = [] := by
  apply (spike_detection_characterization [5, 5, 5]).2
  have htv : token_values [5, 5, 5] = [5, 5, 5] := by decide
  have hm : mean_tokens [5, 5, 5] = 5 := by
    unfold mean_tokens
    rw [htv]
    norm_num
  have hv : variance_tokens [5, 5, 5] = 0 := by
    unfold variance_tokens
    rw [htv, hm]
    norm_num
  unfold std_dev
  rw [hv]
  norm_num

lemma gemini_findSome_eq_find (tokens : GeminiTokens) (l : List GeminiToolCallData) :
    l.findSome? (fun tc => gemini_parse_tool_call tc tokens) =
      (l.find? (fun tc => starts_with_marker tc.name)).map
        (fun tc => (tc.name,
          ({ input_tokens := 0, output_tokens := tokens.tool,
             cache_created_tokens := 0, cache_read_tokens := 0,
             thoughts_tokens := 0, tool_tokens := 0, duration_ms := 0,
             success := tc.status = status_success,
             tool_call_id := tc.id } : GeminiUsage))) := by
  induction l with
  | nil => rfl
  | cons tc tl ih =>
    by_cases h : starts_with_marker tc.name
    · have hsome : gemini_parse_tool_call tc tokens =
          some (tc.name,
            { input_tokens := 0, output_tokens := tokens.tool,
              cache_created_tokens := 0, cache_read_tokens := 0,
              thoughts_tokens := 0, tool_tokens := 0, duration_ms := 0,
              success := tc.status = status_success,
              tool_call_id := tc.id }) := by
        simp [gemini_parse_tool_call, h]
      simp [List.findSome?_cons, List.find?_cons, hsome, h]
    · have hnone : gemini_parse_tool_call tc tokens = none := by
        simp [gemini_parse_tool_call, h]
      simp [List.findSome?_cons, List.find?_cons, hnone, h, ih]

lemma find_marker_not_sentinel (l : List GeminiToolCallData)
    (tc : GeminiToolCallData)
    (h : l.find? (fun c => starts_with_marker c.name) = some tc) :
    tc.name ≠ session_sentinel := by
  intro he
  have hp := List.find?_some h
  rw [he] at hp
  exact absurd hp (by decide)

/-- C1 (amended): for a Gemini non-user message carrying a token breakdown
and at least one MCP-matching embedded tool call, `parse_event` emits the
`ToolCallEvent` of the first MCP-matching call, carrying the message's
`tool` token count as its output tokens — and that is the *only* event the
message contributes: the message's overall token breakdown is not
additionally emitted as the sentinel `__session__` delta. -/
theorem first_mcp_call_claims_tool_tokens :
    ∀ (st : GeminiState) (msg : GeminiMsg) (tc : GeminiToolCallData),
      msg.message_type ≠ gemini_type_user →
      msg.tool_calls.find? (fun c => starts_with_marker c.name) = some tc →
      (gemini_parse_event st msg).2 =
        some (tc.name,
          { input_tokens := 0,
            output_tokens := (msg.tokens.getD zero_gemini_tokens).tool,
            cache_created_tokens := 0, cache_read_tokens := 0,
            thoughts_tokens := 0, tool_tokens := 0, duration_ms := 0,
            success := tc.status = status_success, tool_call_id := tc.id }) ∧
      ∀ u : GeminiUsage, (gemini_parse_event st msg).2 ≠ some (session_sentinel, u) := by
  intro st msg tc hu hfind
  have hres : (gemini_parse_event st msg).2 =
      some (tc.name,
        ({ input_tokens := 0,
           output_tokens := (msg.tokens.getD zero_gemini_tokens).tool,
           cache_created_tokens := 0, cache_read_tokens := 0,
           thoughts_tokens := 0, tool_tokens := 0, duration_ms := 0,
           success := tc.status = status_success,
           tool_call_id := tc.id } : GeminiUsage)) := by
    unfold gemini_parse_event
    rw [if_neg hu]
    dsimp only
    rw [gemini_findSome_eq_find, hfind]
    rfl
  refine ⟨hres, ?_⟩
  intro u he
  rw [hres] at he
  have : tc.name = session_sentinel := by
    injection he with h1
    exact congrArg Prod.fst h1
  exact find_marker_not_sentinel _ _ hfind this

/-- Witness for C1's amended statement at the test suite's concrete
message. -/
theorem first_mcp_call_claims_tool_tokens_witness :
    (gemini_parse_event init_gemini
      { id := "msg-003", message_type := "gemini",
        model := some model_gemini_pro,
        tool_calls := [{ id := "call-001", name := "mcp__zen__chat",
                         status := "success" }],
        tokens := some { input := 100, output := 50, cached := 0,
                         thoughts := 0, tool := 10, total := 160 } }).2 =
      some ("mcp__zen__chat",
        { input_tokens := 0, output_tokens := 10,
          cache_created_tokens := 0, cache_read_tokens := 0,
          thoughts_tokens := 0, tool_tokens := 0, duration_ms := 0,
          success := true, tool_call_id := "call-001" }) := by
  have h := (first_mcp_call_claims_tool_tokens init_gemini
    { id := "msg-003", message_type := "gemini",
      model := some model_gemini_pro,
      tool_calls := [{ id := "call-001", name := "mcp__zen__chat",
                       status := "success" }],
      tokens := some { input := 100, output := 50, cached := 0,
                       thoughts := 0, tool := 10, total := 160 } }
    { id := "call-001", name := "mcp__zen__chat", status := "success" }
    (by decide) (by decide)).1
  rw [h]
  decide

/-- Counterexample for C1 as stated: for the message above (tokens
`{input 100, output 50, tool 10}`, one MCP call), the claim's "additionally
emitted sentinel delta" would put the message's `input` tokens (and a
positive total) into the aggregate, but processing the message leaves the
session token totals at zero — only the tool-call event is contributed. -/
theorem mcp_message_session_delta_counterexample :
    (gemini_parse_event init_gemini
      { id := "msg-003", message_type := "gemini",
        model := some model_gemini_pro,
        tool_calls := [{ id := "call-001", name := "mcp__zen__chat",
                         status := "success" }],
        tokens := some { input := 100, output := 50, cached := 0,
                         thoughts := 0, tool := 10, total := 160 } }).2 =
      some ("mcp__zen__chat",
        { input_tokens := 0, output_tokens := 10,
          cache_created_tokens := 0, cache_read_tokens := 0,
          thoughts_tokens := 0, tool_tokens := 0, duration_ms := 0,
          success := true, tool_call_id := "call-001" }) ∧
    (gemini_process_message init_gemini
      { id := "msg-003", message_type := "gemini",
        model := some model_gemini_pro,
        tool_calls := [{ id := "call-001", name := "mcp__zen__chat",
                         status := "success" }],
        tokens := some { input := 100, output := 50, cached := 0,
                         thoughts := 0, tool := 10, total := 160 } }).session.token_usage.input_tokens = 0 ∧
    (gemini_process_message init_gemini
      { id := "msg-003", message_type := "gemini",
        model := some model_gemini_pro,
        tool_calls := [{ id := "call-001", name := "mcp__zen__chat",
                         status := "success" }],
        tokens := some { input := 100, output := 50, cached := 0,
                         thoughts := 0, tool := 10, total := 160 } }).session.token_usage.total_tokens = 0 := by
  refine ⟨?_, ?_, ?_⟩ <;> decide

/-!
Tailing-cursor lemmas
-/

lemma codex_parse_event_preserves (st : CodexState) (r : CodexRecord) :
    (codex_parse_event st r).1.processed_lines = st.processed_lines ∧
    (codex_parse_event st r).1.last_file_mtime = st.last_file_mtime := by
  cases r with
  | session_meta cwd v => exact ⟨rfl, rfl⟩
  | turn_context m =>
    unfold codex_parse_event
    rcases st.detected_model with _ | d <;> rcases m with _ | m0 <;> exact ⟨rfl, rfl⟩
  | token_count info => exact ⟨rfl, rfl⟩
  | function_call n p c => exact ⟨rfl, rfl⟩
  | other => exact ⟨rfl, rfl⟩

lemma codex_step_preserves (st : CodexState) (l : Option CodexRecord) :
    (codex_step st l).processed_lines = st.processed_lines ∧
    (codex_step st l).last_file_mtime = st.last_file_mtime := by
  cases l with
  | none => exact ⟨rfl, rfl⟩
  | some r =>
    have hp := codex_parse_event_preserves st r
    unfold codex_step
    dsimp only
    split
    · exact hp
    · exact hp

lemma codex_fold_preserves (lines : List (Option CodexRecord)) (st : CodexState) :
    (lines.foldl codex_step st).processed_lines = st.processed_lines ∧
    (lines.foldl codex_step st).last_file_mtime = st.last_file_mtime := by
  induction lines generalizing st with
  | nil => exact ⟨rfl, rfl⟩
  | cons l tl ih =>
    have h1 := codex_step_preserves st l
    have h2 := ih (codex_step st l)
    exact ⟨h2.1.trans h1.1, h2.2.trans h1.2⟩

lemma codex_poll_advances (st : CodexState) (f : CodexFileView)
    (lines : List (Option CodexRecord)) (hf : f.present = true)
    (hfc : f.content = .ok lines) (hne : st.last_file_mtime ≠ f.mtime) :
    lines.length ≤ (codex_process_session_file st f).processed_lines := by
  unfold codex_process_session_file
  rw [if_neg (by simp [hf]), if_neg (fun hh => hne hh.symm), hfc]
  dsimp only
  have := List.length_drop st.processed_lines lines
  omega

lemma codex_poll_skips_consumed (st : CodexState) (g : CodexFileView)
    (lines : List (Option CodexRecord)) (hg : g.present = true)
    (hgc : g.content = .ok lines) (hlen : lines.length ≤ st.processed_lines) :
    (codex_process_session_file st g).session = st.session := by
  unfold codex_process_session_file
  by_cases hm : g.mtime = st.last_file_mtime
  · rw [if_neg (by simp [hg]), if_pos hm]
  · rw [if_neg (by simp [hg]), if_neg hm, hgc]
    dsimp only
    rw [List.drop_eq_nil_of_le hlen]
    rfl

lemma gemini_parse_event_preserves (st : GeminiState) (msg : GeminiMsg) :
    (gemini_parse_event st msg).1.processed_message_ids = st.processed_message_ids ∧
    (gemini_parse_event st msg).1.last_file_mtime = st.last_file_mtime := by
  unfold gemini_parse_event
  split
  · exact ⟨rfl, rfl⟩
  · dsimp only
    split
    · split
      · exact ⟨rfl, rfl⟩
      · exact ⟨rfl, rfl⟩
    · split
      · exact ⟨rfl, rfl⟩
      · exact ⟨rfl, rfl⟩

lemma gemini_process_message_seen (st : GeminiState) (msg : GeminiMsg) :
    msg.id ∈ (gemini_process_message st msg).processed_message_ids ∧
    (∀ x ∈ st.processed_message_ids,
      x ∈ (gemini_process_message st msg).processed_message_ids) ∧
    (gemini_process_message st msg).last_file_mtime = st.last_file_mtime := by
  unfold gemini_process_message
  by_cases hmem : msg.id ∈ st.processed_message_ids
  · rw [if_pos hmem]
    exact ⟨hmem, fun x hx => hx, rfl⟩
  · rw [if_neg hmem]
    have hp := gemini_parse_event_preserves st msg
    dsimp only
    constructor
    · split <;> split <;> simp
    constructor
    · intro x hx
      split <;> split <;> simp <;> rw [hp.1] <;> exact Or.inr hx
    · split <;> split <;> simp <;> exact hp.2

lemma gemini_process_message_skip (st : GeminiState) (msg : GeminiMsg)
    (h : msg.id ∈ st.processed_message_ids) :
    gemini_process_message st msg = st := by
  unfold gemini_process_message
  rw [if_pos h]

lemma gemini_fold_seen (msgs : List GeminiMsg) (st : GeminiState) :
    (∀ m ∈ msgs,
      m.id ∈ (msgs.foldl gemini_process_message st).processed_message_ids) ∧
    (∀ x ∈ st.processed_message_ids,
      x ∈ (msgs.foldl gemini_process_message st).processed_message_ids) := by
  induction msgs generalizing st with
  | nil => exact ⟨fun m hm => absurd hm (List.not_mem_nil m), fun x hx => hx⟩
  | cons m tl ih =>
    have h1 := gemini_process_message_seen st m
    refine ⟨?_, ?_⟩
    · intro m0 hm0
      rcases List.mem_cons.mp hm0 with he | ht
      · rw [he]
        exact (ih (gemini_process_message st m)).2 _ h1.1
      · exact (ih (gemini_process_message st m)).1 m0 ht
    · intro x hx
      exact (ih (gemini_process_message st m)).2 _ (h1.2.1 x hx)

lemma gemini_fold_skip (msgs : List GeminiMsg) (st : GeminiState)
    (h : ∀ m ∈ msgs, m.id ∈ st.processed_message_ids) :
    msgs.foldl gemini_process_message st = st := by
  induction msgs with
  | nil => rfl
  | cons m tl ih =>
    rw [List.foldl_cons, gemini_process_message_skip st m (h m (List.mem_cons_self m tl))]
    exact ih (fun m0 hm0 => h m0 (List.mem_cons_of_mem m hm0))

lemma gemini_poll_marks (st : GeminiState) (f : GeminiFileView)
    (msgs : List GeminiMsg) (hf : f.present = true)
    (hfc : f.content = .ok msgs) (hne : st.last_file_mtime ≠ f.mtime) :
    ∀ m ∈ msgs, m.id ∈ (gemini_process_session_file st f).processed_message_ids := by
  unfold gemini_process_session_file
  rw [if_neg (by simp [hf]), if_neg (fun hh => hne hh.symm), hfc]
  exact (gemini_fold_seen msgs _).1

lemma gemini_poll_skips_seen (st : GeminiState) (g : GeminiFileView)
    (msgs : List GeminiMsg) (hg : g.present = true)
    (hgc : g.content = .ok msgs)
    (h : ∀ m ∈ msgs, m.id ∈ st.processed_message_ids) :
    (gemini_process_session_file st g).session = st.session := by
  unfold gemini_process_session_file
  by_cases hm : g.mtime = st.last_file_mtime
  · rw [if_neg (by simp [hg]), if_pos hm]
  · rw [if_neg (by simp [hg]), if_neg hm, hgc]
    dsimp only
    rw [gemini_fold_skip msgs { st with last_file_mtime := g.mtime } h]

/-- C3: replaying the same source through the tailing cursor twice yields an
aggregate identical to replaying it once.  For the append-only Codex source
a second poll over the same lines (whatever the new mtime) applies no record
again: the mtime check short-circuits an unchanged file and the consumed
line count skips everything already read.  For the message-based Gemini
source a second read of the same document forwards no message whose id is
already in the seen set. -/
theorem tailing_replay_idempotent :
    (∀ (st : CodexState) (f g : CodexFileView) (lines : List (Option CodexRecord)),
      f.present = true → f.content = .ok lines → st.last_file_mtime ≠ f.mtime →
      g.present = true → g.content = .ok lines →
      (codex_process_session_file (codex_process_session_file st f) g).session =
        (codex_process_session_file st f).session) ∧
    (∀ (st : GeminiState) (f g : GeminiFileView) (msgs : List GeminiMsg),
      f.present = true → f.content = .ok msgs → st.last_file_mtime ≠ f.mtime →
      g.present = true → g.content = .ok msgs →
      (gemini_process_session_file (gemini_process_session_file st f) g).session =
        (gemini_process_session_file st f).session) := by
  constructor
  · intro st f g lines hf hfc hne hg hgc
    exact codex_poll_skips_consumed _ g lines hg hgc
      (codex_poll_advances st f lines hf hfc hne)
  · intro st f g msgs hf hfc hne hg hgc
    exact gemini_poll_skips_seen _ g msgs hg hgc
      (gemini_poll_marks st f msgs hf hfc hne)

/-- A concrete Codex token-count line used by concrete runs: the delta
`{input 300, cached 1500, output 150, reasoning 50}`. -/
def sample_codex_line : Option CodexRecord :=
  some (.token_count (some
    { last_token_usage := some
        { input_tokens := 300, cached_input_tokens := 1500,
          output_tokens := 150, reasoning_output_tokens := 50 },
      total_token_usage := none }))

/-- Witness for C3 at a concrete one-line Codex file and a one-message
Gemini document, each polled twice with a changed mtime. -/
theorem tailing_replay_idempotent_witness :
    (codex_process_session_file
        (codex_process_session_file init_codex
          { present := true, mtime := 1, content := .ok [sample_codex_line] })
        { present := true, mtime := 2, content := .ok [sample_codex_line] }).session =
      (codex_process_session_file init_codex
        { present := true, mtime := 1, content := .ok [sample_codex_line] }).session ∧
    (gemini_process_session_file
        (gemini_process_session_file init_gemini
          { present := true, mtime := 1, content := .ok
              [{ id := "msg-001", message_type := "gemini",
                 model := some model_gemini_pro, tool_calls := [],
                 tokens := some { input := 1000, output := 50, cached := 500,
                                  thoughts := 100, tool := 0, total := 1650 } }] })
        { present := true, mtime := 2, content := .ok
            [{ id := "msg-001", message_type := "gemini",
               model := some model_gemini_pro, tool_calls := [],
               tokens := some { input := 1000, output := 50, cached := 500,
                                thoughts := 100, tool := 0, total := 1650 } }] }).session =
      (gemini_process_session_file init_gemini
        { present := true, mtime := 1, content := .ok
            [{ id := "msg-001", message_type := "gemini",
               model := some model_gemini_pro, tool_calls := [],
               tokens := some { input := 1000, output := 50, cached := 500,
                                thoughts := 100, tool := 0, total := 1650 } }] }).session :=
  ⟨tailing_replay_idempotent.1 init_codex
      { present := true, mtime := 1, content := .ok [sample_codex_line] }
      { present := true, mtime := 2, content := .ok [sample_codex_line] }
      [sample_codex_line] rfl rfl (by decide) rfl rfl,
   tailing_replay_idempotent.2 init_gemini
      { present := true, mtime := 1, content := .ok
          [{ id := "msg-001", message_type := "gemini",
             model := some model_gemini_pro, tool_calls := [],
             tokens := some { input := 1000, output := 50, cached := 500,
                              thoughts := 100, tool := 0, total := 1650 } }] }
      { present := true, mtime := 2, content := .ok
          [{ id := "msg-001", message_type := "gemini",
             model := some model_gemini_pro, tool_calls := [],
             tokens := some { input := 1000, output := 50, cached := 500,
                              thoughts := 100, tool := 0, total := 1650 } }] }
      [{ id := "msg-001", message_type := "gemini",
         model := some model_gemini_pro, tool_calls := [],
         tokens := some { input := 1000, output := 50, cached := 500,
                          thoughts := 100, tool := 0, total := 1650 } }]
      rfl rfl (by decide) rfl rfl⟩

/-- C8 (amended): a poll for which the file is missing is a complete no-op
on state and cursor, and no exception escapes a failed read (the step is a
total function).  A failed read never advances the consumed-line count
(Codex) or the seen-id set (Gemini).  The Gemini document parse is atomic
(`json.load` completes before any message is forwarded), so a failed Gemini
poll leaves the aggregate untouched.  The Codex adapter streams lines
inside the `try`, so a mid-read failure has already applied the new lines
streamed before the raise — the failed poll equals folding exactly those
lines over the aggregate — and only a failure before the first new line
(e.g. on `open`) leaves the aggregate unchanged.  In both adapters the
recorded mtime is advanced before the read, so the records of a failed poll
are reprocessed (for Codex: re-applied) only after the file's mtime changes
again, not unconditionally on the next poll. -/
theorem read_failure_transient_no_op :
    (∀ (st : CodexState) (f : CodexFileView), f.present = false →
      codex_process_session_file st f = st) ∧
    (∀ (st : CodexState) (f : CodexFileView) (pre : List (Option CodexRecord)),
      f.content = .error pre →
      (codex_process_session_file st f).processed_lines = st.processed_lines ∧
      (f.present = true → st.last_file_mtime ≠ f.mtime →
        codex_process_session_file st f =
          (pre.drop st.processed_lines).foldl codex_step
            { st with last_file_mtime := f.mtime }) ∧
      (pre.length ≤ st.processed_lines →
        (codex_process_session_file st f).session = st.session)) ∧
    (∀ (st : GeminiState) (f : GeminiFileView), f.present = false →
      gemini_process_session_file st f = st) ∧
    (∀ (st : GeminiState) (f : GeminiFileView), f.content = .error () →
      (gemini_process_session_file st f).session = st.session ∧
      (gemini_process_session_file st f).processed_message_ids =
        st.processed_message_ids) := by
  refine ⟨?_, ?_, ?_, ?_⟩
  · intro st f hf
    unfold codex_process_session_file
    rw [if_pos hf]
  · intro st f pre hfc
    refine ⟨?_, ?_, ?_⟩
    · unfold codex_process_session_file
      by_cases hp : f.present = false
      · rw [if_pos hp]
      · rw [if_neg hp]
        by_cases hm : f.mtime = st.last_file_mtime
        · rw [if_pos hm]
        · rw [if_neg hm, hfc]
          dsimp only
          exact (codex_fold_preserves _ _).1
    · intro hp hne
      unfold codex_process_session_file
      rw [if_neg (by simp [hp]), if_neg (fun hh => hne hh.symm), hfc]
    · intro hlen
      unfold codex_process_session_file
      by_cases hp : f.present = false
      · rw [if_pos hp]
      · rw [if_neg hp]
        by_cases hm : f.mtime = st.last_file_mtime
        · rw [if_pos hm]
        · rw [if_neg hm, hfc]
          dsimp only
          rw [List.drop_eq_nil_of_le hlen]
          rfl
  · intro st f hf
    unfold gemini_process_session_file
    rw [if_pos hf]
  · intro st f hfc
    unfold gemini_process_session_file
    by_cases hp : f.present = false
    · rw [if_pos hp]
      exact ⟨rfl, rfl⟩
    · rw [if_neg hp]
      by_cases hm : f.mtime = st.last_file_mtime
      · rw [if_pos hm]
        exact ⟨rfl, rfl⟩
      · rw [if_neg hm, hfc]
        exact ⟨rfl, rfl⟩

/-- Witness for C8's amended statement: a missing Codex file, a Codex read
failing on `open` (no lines streamed), and a failing Gemini read, each at
concrete states. -/
theorem read_failure_transient_no_op_witness :
    codex_process_session_file init_codex
        { present := false, mtime := 5, content := .error [] } = init_codex ∧
    (codex_process_session_file init_codex
        { present := true, mtime := 7, content := .error [] }).session =
      init_codex.session ∧
    (codex_process_session_file init_codex
        { present := true, mtime := 7, content := .error [] }).processed_lines =
      init_codex.processed_lines ∧
    (gemini_process_session_file init_gemini
        { present := true, mtime := 3, content := .error () }).session =
      init_gemini.session :=
  ⟨read_failure_transient_no_op.1 init_codex
      { present := false, mtime := 5, content := .error [] } rfl,
   (read_failure_transient_no_op.2.1 init_codex
      { present := true, mtime := 7, content := .error [] } [] rfl).2.2 (by decide),
   (read_failure_transient_no_op.2.1 init_codex
      { present := true, mtime := 7, content := .error [] } [] rfl).1,
   (read_failure_transient_no_op.2.2.2 init_gemini
      { present := true, mtime := 3, content := .error () } rfl).1⟩

/-- Counterexample for C8 as stated, in two parts.  No-retry: a read that
fails on `open` advances the recorded mtime from 0 to 1, so the next poll
over the now readable, unchanged file processes nothing — the token-count
record that a direct first read would turn into 2000 total tokens is lost
until the mtime changes again.  Not-a-no-op: a read that fails *after*
streaming the token-count line has already applied it (2000 tokens in the
aggregate, consumed count still 0), and the next successful poll after an
mtime change re-reads and re-applies it (4000 tokens). -/
theorem read_failure_retry_counterexample :
    (codex_process_session_file init_codex
        { present := true, mtime := 1, content := .error [] }).last_file_mtime = 1 ∧
    init_codex.last_file_mtime = 0 ∧
    codex_process_session_file
        (codex_process_session_file init_codex
          { present := true, mtime := 1, content := .error [] })
        { present := true, mtime := 1, content := .ok [sample_codex_line] } =
      codex_process_session_file init_codex
        { present := true, mtime := 1, content := .error [] } ∧
    (codex_process_session_file
        (codex_process_session_file init_codex
          { present := true, mtime := 1, content := .error [] })
        { present := true, mtime := 1,
          content := .ok [sample_codex_line] }).session.token_usage.total_tokens = 0 ∧
    (codex_process_session_file init_codex
        { present := true, mtime := 1,
          content := .ok [sample_codex_line] }).session.token_usage.total_tokens = 2000 ∧
    (codex_process_session_file init_codex
        { present := true, mtime := 1,
          content := .error [sample_codex_line] }).session.token_usage.total_tokens = 2000 ∧
    (codex_process_session_file init_codex
        { present := true, mtime := 1,
          content := .error [sample_codex_line] }).processed_lines = 0 ∧
    (codex_process_session_file
        (codex_process_session_file init_codex
          { present := true, mtime := 1, content := .error [sample_codex_line] })
        { present := true, mtime := 2,
          content := .ok [sample_codex_line] }).session.token_usage.total_tokens = 4000 := by
  refine ⟨?_, ?_, ?_, ?_, ?_, ?_, ?_, ?_⟩ <;> decide

end TokenAudit
